import Mathlib

/-
Shallow embedding of the YamlPatcher component of
cosmo_tester/framework/util.py.

The in-memory YAML document is modelled as a tree of mappings
(string-keyed association lists, matching the spec's "string keys,
insertion order irrelevant" data model), sequences and scalars.
Python errors are modelled by distinct constructors, one per raise
site that the operations can reach.
-/

/-- A parsed YAML document value (the tree `yaml.load` produces). -/
inductive Yaml where
  | null : Yaml
  | bool : Bool → Yaml
  | int : Int → Yaml
  | str : String → Yaml
  | seq : List Yaml → Yaml
  | map : List (String × Yaml) → Yaml

/-- The distinct Python exceptions the YamlPatcher operations can raise.
`runtimeIllegal` is `RuntimeError('illegal path: ...')` from `_raise_illegal`
(the spec's PathError kind); `indexError` is a list subscript out of range
(the spec's IndexOutOfRange kind for read-descent); `assertionNotList` is
`AssertionError('Cannot set list value for not list item ...')` (the spec's
TypeMismatch kind); `assertionIndex` is `AssertionError('Cannot set list
value for ...')` raised when the index is past one-past-the-end (the spec's
IndexOutOfRange kind for setValue); `keyError` is Python KeyError (the
spec's KeyMissing kind); `typeError` / `attributeError` are Python
TypeError / AttributeError on ill-typed container accesses. -/
inductive PyErr where
  | keyError : PyErr
  | indexError : PyErr
  | typeError : PyErr
  | attributeError : PyErr
  | runtimeIllegal : PyErr
  | assertionNotList : PyErr
  | assertionIndex : PyErr
deriving DecidableEq

/-- Association-list model of a Python dict (string keys): lookup. -/
def lookupA : List (String × Yaml) → String → Option Yaml
  | [], _ => none
  | (k, v) :: rest, key => if k == key then some v else lookupA rest key

/-- Python `key in dict`. -/
def containsA (m : List (String × Yaml)) (k : String) : Bool :=
  (lookupA m k).isSome

/-- Python `dict[key] = v`: overwrite in place if present, else append. -/
def setA : List (String × Yaml) → String → Yaml → List (String × Yaml)
  | [], key, v => [(key, v)]
  | (k, w) :: rest, key, v =>
      if k == key then (k, v) :: rest else (k, w) :: setA rest key v

/-- Python `dict.pop(key)` (the removal part). -/
def eraseA : List (String × Yaml) → String → List (String × Yaml)
  | [], _ => []
  | (k, w) :: rest, key => if k == key then rest else (k, w) :: eraseA rest key

/-- Python `name in someList` where `name` is a string: true iff some
element is a string equal to `name` (string == non-string is False). -/
def listHasStr (l : List Yaml) (name : String) : Bool :=
  l.any fun y => match y with
    | .str s => s == name
    | _ => false

/-- Whether `pat` is a prefix of `s` (character lists). -/
def startsWithL : List Char → List Char → Bool
  | [], _ => true
  | _ :: _, [] => false
  | a :: as, b :: bs => a == b && startsWithL as bs

/-- Python `pat in s` substring test on strings. -/
def inStr : List Char → List Char → Bool
  | pat, [] => pat.isEmpty
  | pat, s@(_ :: rest) => startsWithL pat s || inStr pat rest

/-- Leading run of decimal digits of a character list, and the remainder
(the `\d+` part of the `(.+)\[(\d+)\]` regex). -/
def takeDigits : List Char → List Char × List Char
  | [] => ([], [])
  | c :: cs =>
      if c.isDigit then
        let p := takeDigits cs
        (c :: p.1, p.2)
      else ([], c :: cs)

/-- Value of a digit string, as computed by Python `int`. -/
def digitsToNat (ds : List Char) : Nat :=
  ds.foldl (fun n c => n * 10 + (c.toNat - 48)) 0

/-- Core of `YamlPatcher.pattern.match` for `re.compile("(.+)\[(\d+)\]")`:
`name` is the (reversed-in-spirit) prefix matched so far by the greedy `.+`,
`rest` the remainder. Greedy `.+` prefers the longest name, i.e. the
rightmost viable `[digits]`; `.` does not match a newline; `re.match`
only anchors at the start, so trailing characters after `]` are ignored. -/
def matchIdxAux : List Char → List Char → Option (List Char × Nat)
  | _, [] => none
  | name, c :: cs =>
      match (if c == '\n' then none else matchIdxAux (name ++ [c]) cs) with
      | some r => some r
      | none =>
          if c == '[' && !name.isEmpty then
            match takeDigits cs with
            | (d :: ds, rest2) =>
                match rest2 with
                | ']' :: _ => some (name, digitsToNat (d :: ds))
                | _ => none
            | _ => none
          else none

/-- `YamlPatcher.pattern.match(segment)`: if the segment has the indexed
form `name[index]` (per the source regex `(.+)\[(\d+)\]`), return the
name and the parsed index. -/
def matchIndexed (s : String) : Option (String × Nat) :=
  (matchIdxAux [] s.data).map fun p => (String.mk p.1, p.2)

/-- One step of `re.split('(?<![^\\]\\)\.', path)`: `p2`/`p1` are the two
characters preceding the current position in the original string (when
they exist).  A dot is a separator unless the two preceding characters
are a non-backslash followed by a backslash; a negative lookbehind that
cannot fit (fewer than two preceding characters) succeeds, so such a dot
still separates. -/
def splitAux : Option Char → Option Char → List Char → List Char → List (List Char)
  | _, _, [], acc => [acc.reverse]
  | p2, p1, '.' :: rest, acc =>
      if (match p2, p1 with
          | some c2, some c1 => c2 != '\\' && c1 == '\\'
          | _, _ => false) then
        splitAux p1 (some '.') rest ('.' :: acc)
      else
        acc.reverse :: splitAux p1 (some '.') rest []
  | _p2, p1, c :: rest, acc => splitAux p1 (some c) rest (c :: acc)

/-- Raw split of a path on unescaped dots (before per-part unescaping). -/
def splitRaw (s : List Char) : List (List Char) :=
  splitAux none none s []

/-- Python `p.replace('\.', '.')`: left-to-right, non-overlapping. -/
def replDotEsc : List Char → List Char
  | '\\' :: '.' :: rest => '.' :: replDotEsc rest
  | c :: rest => c :: replDotEsc rest
  | [] => []

/-- Python `p.replace('\\\\', '\\')` (two backslashes become one):
left-to-right, non-overlapping. -/
def replBsBs : List Char → List Char
  | '\\' :: '\\' :: rest => '\\' :: replBsBs rest
  | c :: rest => c :: replBsBs rest
  | [] => []

/-- `YamlPatcher._split_path`: split on unescaped dots, then unescape
each part. -/
def splitPath (s : String) : List String :=
  (splitRaw s.data).map fun p => String.mk (replBsBs (replDotEsc p))

/-- Python `p.replace('.', '\.')` used when re-joining the parent path in
`_get_parent_obj_prop_name_by_path` (only dots are re-escaped). -/
def escDot : List Char → List Char
  | '.' :: rest => '\\' :: '.' :: escDot rest
  | c :: rest => c :: escDot rest
  | [] => []

/-- `'.'.join(p.replace('.', '\.') for p in split[:-1])` from
`_get_parent_obj_prop_name_by_path`. -/
def rejoinParent (parts : List String) : String :=
  String.intercalate "." (parts.dropLast.map fun p => String.mk (escDot p.data))

/-- The segment list the parent lookup walks: the re-joined parent path,
split again by `_split_path` (exactly what `_get_object_by_path` does with
it). -/
def parentSegs (parts : List String) : List String :=
  splitPath (rejoinParent parts)

/-
`_get_object_by_path` walks the split segments from the document root,
auto-creating absent plain keys as empty mappings and checking indexed
segments against the current mapping.  The Python loop mutates aliased
sub-objects in place; the pure embedding instead threads a continuation
`f` that is applied to the finally-resolved object and returns its
replacement (plus an auxiliary result), and rebuilds the document on the
way out.  On an error the Python in-memory document may retain
intermediate auto-created mappings, but no caller observes that state
through the operations modelled here (and an error suppresses the
write-back), so the pure embedding reports only the error.
-/

/-- The per-segment walk of `YamlPatcher._get_object_by_path`, with a
continuation `f` applied to the resolved object (see module note above).
Branches on non-mapping containers mirror the Python semantics of
`x in current`, `current[name]` and `current[name] = {}` on lists,
strings and scalars. -/
def walk {α : Type} (f : Yaml → Except PyErr (Yaml × α)) :
    Yaml → List String → Except PyErr (Yaml × α)
  | current, [] => f current
  | current, seg :: rest =>
      match matchIndexed seg with
      | some (name, idx) =>
          match current with
          | .map m =>
              match lookupA m name with
              | none => .error .runtimeIllegal
              | some (.seq l) =>
                  if h : idx < l.length then
                    match walk f l[idx] rest with
                    | .error e => .error e
                    | .ok (c2, a) =>
                        .ok (.map (setA m name (.seq (l.set idx c2))), a)
                  else .error .indexError
              | some _ => .error .runtimeIllegal
          | .seq l =>
              if listHasStr l name then .error .typeError
              else .error .runtimeIllegal
          | .str s =>
              if inStr name.data s.data then .error .typeError
              else .error .runtimeIllegal
          | _ => .error .typeError
      | none =>
          match current with
          | .map m =>
              match lookupA m seg with
              | some child =>
                  match walk f child rest with
                  | .error e => .error e
                  | .ok (c2, a) => .ok (.map (setA m seg c2), a)
              | none =>
                  match walk f (.map []) rest with
                  | .error e => .error e
                  | .ok (c2, a) => .ok (.map (setA m seg c2), a)
          | _ => .error .typeError

/-- Pure reading variant of the walk: returns the updated document
(auto-created intermediate mappings included) and the resolved object. -/
def walkRead (doc : Yaml) (segs : List String) : Except PyErr (Yaml × Yaml) :=
  walk (fun y => .ok (y, y)) doc segs

/-- Pure writing variant of the walk: replace the resolved object by `v`
and return the updated document. -/
def walkSet (doc : Yaml) (segs : List String) (v : Yaml) : Except PyErr Yaml :=
  match walk (fun _ => (.ok (v, ()) : Except PyErr (Yaml × Unit))) doc segs with
  | .error e => .error e
  | .ok (d, _) => .ok d

/-- One descent step of the walk: on success, the child object the walk
descends into, and the rebuild function that reassembles the current
object from the (possibly replaced) child. -/
def stepDesc (current : Yaml) (seg : String) :
    Except PyErr (Yaml × (Yaml → Yaml)) :=
  match matchIndexed seg with
  | some (name, idx) =>
      match current with
      | .map m =>
          match lookupA m name with
          | none => .error .runtimeIllegal
          | some (.seq l) =>
              if h : idx < l.length then
                .ok (l[idx], fun c2 => .map (setA m name (.seq (l.set idx c2))))
              else .error .indexError
          | some _ => .error .runtimeIllegal
      | .seq l =>
          if listHasStr l name then .error .typeError
          else .error .runtimeIllegal
      | .str s =>
          if inStr name.data s.data then .error .typeError
          else .error .runtimeIllegal
      | _ => .error .typeError
  | none =>
      match current with
      | .map m =>
          match lookupA m seg with
          | some child => .ok (child, fun c2 => .map (setA m seg c2))
          | none => .ok (.map [], fun c2 => .map (setA m seg c2))
      | _ => .error .typeError

/-- Python `a + b` as used by `append_value`: defined for
number/number (booleans count as 0/1), string/string and list/list;
every other combination raises TypeError. -/
def addVals : Yaml → Yaml → Except PyErr Yaml
  | .int a, .int b => .ok (.int (a + b))
  | .int a, .bool b => .ok (.int (a + (if b then 1 else 0)))
  | .bool a, .int b => .ok (.int ((if a then 1 else 0) + b))
  | .bool a, .bool b => .ok (.int ((if a then 1 else 0) + (if b then 1 else 0)))
  | .str a, .str b => .ok (.str (a ++ b))
  | .seq a, .seq b => .ok (.seq (a ++ b))
  | _, _ => .error .typeError

/-- The body of `YamlPatcher.set_value` applied to the resolved parent
object and final property name: an indexed final segment requires the
named property to exist (`obj = obj[prop_name]`, KeyError when absent)
and be a list (AssertionError otherwise); `index == len` appends,
`index < len` overwrites, `index > len` raises AssertionError.  A plain
final segment is assigned unconditionally on a mapping parent. -/
def setCont (v : Yaml) (parent : Yaml) (prop : String) : Except PyErr Yaml :=
  match matchIndexed prop with
  | some (name, idx) =>
      match parent with
      | .map m =>
          match lookupA m name with
          | none => .error .keyError
          | some (.seq l) =>
              if l.length < idx then .error .assertionIndex
              else if idx == l.length then
                .ok (.map (setA m name (.seq (l ++ [v]))))
              else
                .ok (.map (setA m name (.seq (l.set idx v))))
          | some _ => .error .assertionNotList
      | _ => .error .typeError
  | none =>
      match parent with
      | .map m => .ok (.map (setA m prop v))
      | _ => .error .typeError

/-- The body of `YamlPatcher.append_value` applied to the resolved
parent and final property name: `obj[prop_name] = obj[prop_name] + value`
(KeyError when the key is absent from a mapping parent). -/
def appendCont (v : Yaml) (parent : Yaml) (prop : String) : Except PyErr Yaml :=
  match parent with
  | .map m =>
      match lookupA m prop with
      | none => .error .keyError
      | some old =>
          match addVals old v with
          | .error e => .error e
          | .ok s => .ok (.map (setA m prop s))
  | _ => .error .typeError

/-- The body of `YamlPatcher.delete_property` applied to the resolved
parent and final property name: pop when present; when absent, KeyError
if `raise_if_missing` else leave the parent unchanged. -/
def deleteCont (raiseIfMissing : Bool) (parent : Yaml) (prop : String) :
    Except PyErr Yaml :=
  match parent with
  | .map m =>
      if containsA m prop then .ok (.map (eraseA m prop))
      else if raiseIfMissing then .error .keyError
      else .ok (.map m)
  | .seq l =>
      if listHasStr l prop then .error .typeError
      else if raiseIfMissing then .error .keyError
      else .ok (.seq l)
  | .str s =>
      if inStr prop.data s.data then .error .attributeError
      else if raiseIfMissing then .error .keyError
      else .ok (.str s)
  | _ => .error .typeError

/-- `dict` update applied by `merge_obj`: `for key, value in
merged_props.items(): obj[key] = value`. -/
def mergeProps (m : List (String × Yaml)) (props : List (String × Yaml)) :
    List (String × Yaml) :=
  props.foldl (fun acc kv => setA acc kv.1 kv.2) m

/-- The body of `YamlPatcher.merge_obj` applied to the resolved object. -/
def mergeCont (props : List (String × Yaml)) (obj : Yaml) : Except PyErr Yaml :=
  match obj with
  | .map m => .ok (.map (mergeProps m props))
  | _ => .error .typeError

/-- `YamlPatcher._get_parent_obj_prop_name_by_path`, in pure form: for a
single-part split the parent is the document root and the property name
is the RAW path string (no unescaping); otherwise the parent path is
re-joined (re-escaping only dots) and resolved by `_get_object_by_path`,
and the property name is the last (unescaped) part.  Returns the updated
document (auto-created mappings included), the parent object and the
property name. -/
def getParentAndProp (doc : Yaml) (propPath : String) :
    Except PyErr (Yaml × Yaml × String) :=
  if (splitPath propPath).length == 1 then .ok (doc, doc, propPath)
  else
    match walkRead doc (parentSegs (splitPath propPath)) with
    | .error e => .error e
    | .ok (d, parent) => .ok (d, parent, (splitPath propPath).getLastD "")

/-- Shared shape of `set_value`, `append_value` and `delete_property`:
resolve the parent per `_get_parent_obj_prop_name_by_path` and apply the
operation body `f` to it; the Python in-place mutation of the aliased
parent is rendered by writing `f`'s result back at the parent's
location. -/
def applyOnParent (doc : Yaml) (propPath : String)
    (f : Yaml → String → Except PyErr Yaml) : Except PyErr Yaml :=
  if (splitPath propPath).length == 1 then f doc propPath
  else
    match walk (fun p =>
        match f p ((splitPath propPath).getLastD "") with
        | .error e => .error e
        | .ok p2 => .ok (p2, ())) doc (parentSegs (splitPath propPath)) with
    | .error e => .error e
    | .ok (d, _) => .ok d

/-- The document with the object at `propPath`'s parent location replaced
by `p2` (root itself for a single-part path).  Used to state what the
mutating operations produce. -/
def setAtParent (doc : Yaml) (propPath : String) (p2 : Yaml) :
    Except PyErr Yaml :=
  if (splitPath propPath).length == 1 then .ok p2
  else walkSet doc (parentSegs (splitPath propPath)) p2

/-- `YamlPatcher.set_value`. -/
def set_value (doc : Yaml) (propPath : String) (v : Yaml) : Except PyErr Yaml :=
  applyOnParent doc propPath (setCont v)

/-- `YamlPatcher.append_value`. -/
def append_value (doc : Yaml) (propPath : String) (v : Yaml) :
    Except PyErr Yaml :=
  applyOnParent doc propPath (appendCont v)

/-- `YamlPatcher.delete_property`. -/
def delete_property (doc : Yaml) (propPath : String)
    (raiseIfMissing : Bool) : Except PyErr Yaml :=
  applyOnParent doc propPath (deleteCont raiseIfMissing)

/-- `YamlPatcher.merge_obj`: resolve the full path with
`_get_object_by_path` (auto-creating absent plain segments, the final one
included) and overwrite each merged key in the resolved object. -/
def merge_obj (doc : Yaml) (propPath : String)
    (props : List (String × Yaml)) : Except PyErr Yaml :=
  match walk (fun o =>
      match mergeCont props o with
      | .error e => .error e
      | .ok o2 => .ok (o2, ())) doc (splitPath propPath) with
  | .error e => .error e
  | .ok (d, _) => .ok d

/-- The state a `YamlPatcher` scope acts on: the source file on disk and
the in-memory document.  The file is modelled at parsed-value level (the
spec's round-trip property: serialization then re-parsing yields an
equal in-memory structure), so writing back stores the document value
itself. -/
structure PatcherState where
  disk : Yaml
  obj : Yaml

/-- `YamlPatcher.__exit__`: `excOccurred` is whether an exception type
propagated out of the scope (`exc_type` non-None); the document is
serialized and written back to the same source location only when no
exception occurred. -/
def exitScope (s : PatcherState) (excOccurred : Bool) : PatcherState :=
  if excOccurred then s else { s with disk := s.obj }

/-! ### Association-list lemmas -/

theorem lookupA_setA_self (m : List (String × Yaml)) (k : String) (v : Yaml) :
    lookupA (setA m k v) k = some v := by
  induction m with
  | nil => simp [setA, lookupA]
  | cons hd tl ih =>
      obtain ⟨k1, v1⟩ := hd
      by_cases h : k1 = k
      · simp [setA, lookupA, h]
      · simp [setA, lookupA, h, ih]

theorem lookupA_setA_ne (m : List (String × Yaml)) (k k2 : String) (v : Yaml)
    (h : k2 ≠ k) : lookupA (setA m k v) k2 = lookupA m k2 := by
  induction m with
  | nil => simp [setA, lookupA, Ne.symm h]
  | cons hd tl ih =>
      obtain ⟨k1, v1⟩ := hd
      by_cases h1 : k1 = k
      · subst h1
        simp [setA, lookupA, Ne.symm h]
      · by_cases h2 : k1 = k2
        · subst h2
          simp [setA, lookupA, h1, h]
        · simp [setA, lookupA, h1, h2, ih]

theorem setA_setA (m : List (String × Yaml)) (k : String) (v w : Yaml) :
    setA (setA m k v) k w = setA m k w := by
  induction m with
  | nil => simp [setA]
  | cons hd tl ih =>
      obtain ⟨k1, v1⟩ := hd
      by_cases h : k1 = k
      · simp [setA, h]
      · simp [setA, h, ih]

theorem mergeProps_cons (m : List (String × Yaml)) (k : String) (v : Yaml)
    (rest : List (String × Yaml)) :
    mergeProps m ((k, v) :: rest) = mergeProps (setA m k v) rest := by
  simp [mergeProps]

theorem lookupA_mergeProps_notMem (props m : List (String × Yaml)) (k : String)
    (h : k ∉ props.map Prod.fst) :
    lookupA (mergeProps m props) k = lookupA m k := by
  induction props generalizing m with
  | nil => simp [mergeProps]
  | cons hd tl ih =>
      obtain ⟨k1, v1⟩ := hd
      simp only [List.map_cons, List.mem_cons] at h
      push_neg at h
      rw [mergeProps_cons, ih _ h.2, lookupA_setA_ne _ _ _ _ h.1]

theorem lookupA_mergeProps_mem (props m : List (String × Yaml)) (k : String)
    (v : Yaml) (hnd : (props.map Prod.fst).Nodup) (h : (k, v) ∈ props) :
    lookupA (mergeProps m props) k = some v := by
  induction props generalizing m with
  | nil => simp at h
  | cons hd tl ih =>
      obtain ⟨k1, v1⟩ := hd
      simp only [List.map_cons, List.nodup_cons] at hnd
      rcases List.mem_cons.mp h with heq | hmem
      · obtain ⟨hk, hv⟩ := Prod.mk.injEq .. ▸ heq
        subst hk; subst hv
        rw [mergeProps_cons]
        have hk1 : k ∉ tl.map Prod.fst := hnd.1
        rw [lookupA_mergeProps_notMem _ _ _ hk1, lookupA_setA_self]
      · rw [mergeProps_cons]
        exact ih _ hnd.2 hmem

/-! ### Structural lemmas about the resolution walk -/

theorem walk_cons {α : Type} (f : Yaml → Except PyErr (Yaml × α))
    (current : Yaml) (seg : String) (rest : List String) :
    walk f current (seg :: rest) =
      match stepDesc current seg with
      | .error e => .error e
      | .ok (child, rb) =>
          match walk f child rest with
          | .error e => .error e
          | .ok (c2, a) => .ok (rb c2, a) := by
  cases hmi : matchIndexed seg with
  | none =>
      cases current with
      | map m =>
          cases hl : lookupA m seg with
          | some child =>
              cases hw : walk f child rest with
              | error e => simp [walk, stepDesc, hmi, hl, hw]
              | ok p => obtain ⟨c2, a⟩ := p; simp [walk, stepDesc, hmi, hl, hw]
          | none =>
              cases hw : walk f (.map []) rest with
              | error e => simp [walk, stepDesc, hmi, hl, hw]
              | ok p => obtain ⟨c2, a⟩ := p; simp [walk, stepDesc, hmi, hl, hw]
      | null => simp [walk, stepDesc, hmi]
      | bool b => simp [walk, stepDesc, hmi]
      | int n => simp [walk, stepDesc, hmi]
      | str s => simp [walk, stepDesc, hmi]
      | seq l => simp [walk, stepDesc, hmi]
  | some ni =>
      obtain ⟨name, idx⟩ := ni
      cases current with
      | map m =>
          cases hl : lookupA m name with
          | none => simp [walk, stepDesc, hmi, hl]
          | some y =>
              cases y with
              | seq l =>
                  by_cases h : idx < l.length
                  · cases hw : walk f l[idx] rest with
                    | error e => simp [walk, stepDesc, hmi, hl, h, hw]
                    | ok p => obtain ⟨c2, a⟩ := p; simp [walk, stepDesc, hmi, hl, h, hw]
                  · simp [walk, stepDesc, hmi, hl, h]
              | null => simp [walk, stepDesc, hmi, hl]
              | bool b => simp [walk, stepDesc, hmi, hl]
              | int n => simp [walk, stepDesc, hmi, hl]
              | str s => simp [walk, stepDesc, hmi, hl]
              | map m2 => simp [walk, stepDesc, hmi, hl]
      | null => simp [walk, stepDesc, hmi]
      | bool b => simp [walk, stepDesc, hmi]
      | int n => simp [walk, stepDesc, hmi]
      | str s =>
          by_cases h2 : inStr name.data s.data <;> simp [walk, stepDesc, hmi, h2]
      | seq l =>
          by_cases h2 : listHasStr l name <;> simp [walk, stepDesc, hmi, h2]

theorem walkRead_cons (doc : Yaml) (seg : String) (rest : List String) :
    walkRead doc (seg :: rest) =
      match stepDesc doc seg with
      | .error e => .error e
      | .ok (child, rb) =>
          match walkRead child rest with
          | .error e => .error e
          | .ok (c2, val) => .ok (rb c2, val) := by
  unfold walkRead
  rw [walk_cons]
  cases stepDesc doc seg with
  | error e => rfl
  | ok p =>
      obtain ⟨child, rb⟩ := p
      dsimp only
      cases walk (fun y => (.ok (y, y) : Except PyErr (Yaml × Yaml))) child rest with
      | error e => rfl
      | ok q => obtain ⟨c2, a⟩ := q; rfl

theorem walkSet_cons (doc : Yaml) (seg : String) (rest : List String) (v : Yaml) :
    walkSet doc (seg :: rest) v =
      match stepDesc doc seg with
      | .error e => .error e
      | .ok (child, rb) =>
          match walkSet child rest v with
          | .error e => .error e
          | .ok d2 => .ok (rb d2) := by
  unfold walkSet
  rw [walk_cons]
  cases hs : stepDesc doc seg with
  | error e => rfl
  | ok p =>
      obtain ⟨child, rb⟩ := p
      dsimp only
      cases hw : walk (fun _ => (.ok (v, ()) : Except PyErr (Yaml × Unit))) child rest with
      | error e => rfl
      | ok q => obtain ⟨d2, u⟩ := q; rfl

/-- Decomposition of the walk-with-continuation into a pure read of the
resolved object, the continuation applied to it, and a pure write of its
replacement back at the resolved location. -/
theorem walk_decompose {α : Type} (f : Yaml → Except PyErr (Yaml × α))
    (segs : List String) (doc : Yaml) :
    walk f doc segs =
      match walkRead doc segs with
      | .error e => .error e
      | .ok (_, val) =>
          match f val with
          | .error e => .error e
          | .ok (v2, a) =>
              match walkSet doc segs v2 with
              | .error e => .error e
              | .ok d2 => .ok (d2, a) := by
  induction segs generalizing doc with
  | nil =>
      show f doc = _
      cases hf : f doc with
      | error e => simp [walkRead, walk, hf]
      | ok p =>
          obtain ⟨v2, a⟩ := p
          simp [walkRead, walkSet, walk, hf]
  | cons seg rest ih =>
      rw [walk_cons, walkRead_cons]
      cases hs : stepDesc doc seg with
      | error e => rfl
      | ok p =>
          obtain ⟨child, rb⟩ := p
          dsimp only
          rw [ih child]
          cases hr : walkRead child rest with
          | error e => rfl
          | ok q =>
              obtain ⟨c0, val⟩ := q
              dsimp only
              cases hf : f val with
              | error e => rfl
              | ok r =>
                  obtain ⟨v2, a⟩ := r
                  dsimp only
                  rw [walkSet_cons, hs]
                  dsimp only
                  cases hw : walkSet child rest v2 with
                  | error e => rfl
                  | ok d2 => rfl

/-- Behaviour of the shared parent-directed operation shape: once the
parent resolves (per `_get_parent_obj_prop_name_by_path`), the operation
is its body applied to the parent object, with a successful replacement
written back at the parent's location. -/
theorem applyOnParent_eq (doc : Yaml) (propPath : String)
    (f : Yaml → String → Except PyErr Yaml)
    (d0 parent : Yaml) (prop : String)
    (hres : getParentAndProp doc propPath = .ok (d0, parent, prop)) :
    applyOnParent doc propPath f =
      match f parent prop with
      | .error e => .error e
      | .ok p2 => setAtParent doc propPath p2 := by
  unfold getParentAndProp at hres
  cases hlen : (splitPath propPath).length == 1 with
  | true =>
      simp only [hlen, if_true] at hres
      simp only [Except.ok.injEq, Prod.mk.injEq] at hres
      obtain ⟨h1, h2, h3⟩ := hres
      subst h1; subst h2; subst h3
      unfold applyOnParent setAtParent
      simp only [hlen, if_true]
      cases f doc propPath with
      | error e => rfl
      | ok p2 => rfl
  | false =>
      simp only [hlen, Bool.false_eq_true, if_false] at hres
      cases hw : walkRead doc (parentSegs (splitPath propPath)) with
      | error e => rw [hw] at hres; exact absurd hres (by simp)
      | ok q =>
          obtain ⟨d, p⟩ := q
          rw [hw] at hres
          simp only [Except.ok.injEq, Prod.mk.injEq] at hres
          obtain ⟨h1, h2, h3⟩ := hres
          subst h1; subst h2; subst h3
          unfold applyOnParent setAtParent
          simp only [hlen, Bool.false_eq_true, if_false]
          rw [walk_decompose, hw]
          dsimp only
          cases hf : f p ((splitPath propPath).getLastD "") with
          | error e => rfl
          | ok p2 =>
              dsimp only
              cases hws : walkSet doc (parentSegs (splitPath propPath)) p2 with
              | error e => rfl
              | ok d2 => rfl

/-! ### Claim theorems -/

/-- Claim C1: for every editor session, if an error propagates out of the
scope (`exc_type` non-None in `__exit__`) the source file is left
unchanged; on normal exit the in-memory document is serialized and
written back to the same source location (modelled at parsed-value
level). -/
theorem scope_exit_writeback (s : PatcherState) :
    (exitScope s true).disk = s.disk ∧ (exitScope s false).disk = s.obj := by
  constructor <;> simp [exitScope]

/-- Claim C2: for a `set_value` whose final segment has the indexed form
`name[index]` and whose named property in the resolved parent is a
sequence of length L: `index = L` appends (growing the sequence by
exactly one), `index < L` overwrites in place (length unchanged, element
at `index` becomes the value), `index > L` fails with the
AssertionError modelling IndexOutOfRange. -/
theorem set_value_indexed_cases (doc : Yaml) (path : String) (v : Yaml)
    (d0 : Yaml) (m : List (String × Yaml)) (prop name : String) (idx : Nat)
    (l : List Yaml)
    (hres : getParentAndProp doc path = .ok (d0, .map m, prop))
    (hmatch : matchIndexed prop = some (name, idx))
    (hlook : lookupA m name = some (.seq l)) :
    (idx = l.length →
        set_value doc path v =
          setAtParent doc path (.map (setA m name (.seq (l ++ [v])))) ∧
        (l ++ [v]).length = l.length + 1)
  ∧ (idx < l.length →
        set_value doc path v =
          setAtParent doc path (.map (setA m name (.seq (l.set idx v)))) ∧
        (l.set idx v).length = l.length ∧ (l.set idx v)[idx]? = some v)
  ∧ (l.length < idx → set_value doc path v = .error .assertionIndex) := by
  have heq := applyOnParent_eq doc path (setCont v) d0 (.map m) prop hres
  unfold set_value
  rw [heq]
  refine ⟨?_, ?_, ?_⟩
  · intro h
    have h1 : ¬ l.length < idx := by omega
    constructor
    · simp [setCont, hmatch, hlook, h, h1]
    · simp
  · intro h
    have h1 : ¬ l.length < idx := by omega
    have h2 : (idx == l.length) = false := by simp; omega
    refine ⟨?_, ?_, ?_⟩
    · simp [setCont, hmatch, hlook, h1, h2]
    · simp
    · simp [List.getElem?_set_self, h]
  · intro h
    simp [setCont, hmatch, hlook, h]

/-- Claim C3: during path resolution (`_get_object_by_path`), an
intermediate plain segment absent from the current mapping is
auto-created as an empty mapping and descended into; an intermediate
indexed segment fails with the PathError-kind RuntimeError when the name
is absent or its value is not a sequence, and with IndexError when the
index is out of the sequence's bounds. -/
theorem resolution_step {α : Type} (f : Yaml → Except PyErr (Yaml × α))
    (m : List (String × Yaml)) (seg : String) (rest : List String)
    (name : String) (idx : Nat) (y : Yaml) (l : List Yaml) :
    (matchIndexed seg = none → lookupA m seg = none →
        walk f (.map m) (seg :: rest) =
          match walk f (.map []) rest with
          | .error e => .error e
          | .ok (c2, a) => .ok (.map (setA m seg c2), a))
  ∧ (matchIndexed seg = some (name, idx) → lookupA m name = none →
        walk f (.map m) (seg :: rest) = .error .runtimeIllegal)
  ∧ (matchIndexed seg = some (name, idx) → lookupA m name = some y →
        (∀ l2, y ≠ .seq l2) →
        walk f (.map m) (seg :: rest) = .error .runtimeIllegal)
  ∧ (matchIndexed seg = some (name, idx) → lookupA m name = some (.seq l) →
        l.length ≤ idx →
        walk f (.map m) (seg :: rest) = .error .indexError) := by
  refine ⟨?_, ?_, ?_, ?_⟩
  · intro h1 h2
    cases hw : walk f (.map []) rest with
    | error e => simp [walk, h1, h2, hw]
    | ok p => obtain ⟨c2, a⟩ := p; simp [walk, h1, h2, hw]
  · intro h1 h2
    simp [walk, h1, h2]
  · intro h1 h2 h3
    cases y with
    | seq l2 => exact absurd rfl (h3 l2)
    | null => simp [walk, h1, h2]
    | bool b => simp [walk, h1, h2]
    | int n => simp [walk, h1, h2]
    | str s => simp [walk, h1, h2]
    | map m2 => simp [walk, h1, h2]
  · intro h1 h2 h3
    simp [walk, h1, h2, Nat.not_lt.mpr h3]

/-- Claim C4 counterexample: `delete_property("missing.key", false)` on
the empty document is NOT a no-op — parent resolution auto-creates the
intermediate key "missing" as an empty mapping, so the document
changes. -/
theorem delete_missing_mutates :
    delete_property (.map []) "missing.key" false =
        .ok (.map [("missing", .map [])]) ∧
      Yaml.map [("missing", .map [])] ≠ Yaml.map [] :=
  ⟨rfl, by simp⟩

/-- Claim C4 (amended): `delete_property` removes the final key from the
resolved parent when present; when absent it fails with KeyError if
`raise_if_missing` and otherwise performs no removal and raises no
error, but the document still acquires any intermediate mappings
auto-created during parent resolution; for a single-part path the
absent-key non-raising case is a true no-op. -/
theorem delete_property_cases (doc : Yaml) (path : String) (b : Bool)
    (d0 : Yaml) (m : List (String × Yaml)) (prop : String)
    (hres : getParentAndProp doc path = .ok (d0, .map m, prop)) :
    (containsA m prop = true →
        delete_property doc path b =
          setAtParent doc path (.map (eraseA m prop)))
  ∧ (containsA m prop = false → b = true →
        delete_property doc path b = .error .keyError)
  ∧ (containsA m prop = false → b = false →
        delete_property doc path b = setAtParent doc path (.map m))
  ∧ ((splitPath path).length = 1 → containsA m prop = false → b = false →
        delete_property doc path b = .ok doc) := by
  have heq := applyOnParent_eq doc path (deleteCont b) d0 (.map m) prop hres
  unfold delete_property
  rw [heq]
  refine ⟨?_, ?_, ?_, ?_⟩
  · intro h
    simp [deleteCont, h]
  · intro h hb
    subst hb
    simp [deleteCont, h]
  · intro h hb
    subst hb
    simp [deleteCont, h]
  · intro hlen h hb
    subst hb
    have hlen2 : ((splitPath path).length == 1) = true := by simp [hlen]
    have hd : doc = .map m := by
      unfold getParentAndProp at hres
      simp only [hlen2, if_true, Except.ok.injEq, Prod.mk.injEq] at hres
      exact hres.2.1
    simp [deleteCont, h, setAtParent, hlen2, hd]

/-- Claim C5: `append_value` fails with KeyError whenever the final
segment's key does not already exist in the resolved parent mapping (it
never creates a new key); when the key exists it replaces the stored
value with the stored value plus the given value. -/
theorem append_value_spec (doc : Yaml) (path : String) (v : Yaml)
    (d0 : Yaml) (m : List (String × Yaml)) (prop : String) (old sum : Yaml)
    (hres : getParentAndProp doc path = .ok (d0, .map m, prop)) :
    (lookupA m prop = none → append_value doc path v = .error .keyError)
  ∧ (lookupA m prop = some old → addVals old v = .ok sum →
        append_value doc path v =
          setAtParent doc path (.map (setA m prop sum))) := by
  have heq := applyOnParent_eq doc path (appendCont v) d0 (.map m) prop hres
  unfold append_value
  rw [heq]
  constructor
  · intro h
    simp [appendCont, h]
  · intro h ha
    simp [appendCont, h, ha]

/-- Claim C6 counterexample: an escaped dot at the very start of the path
DOES separate segments — the two-character lookbehind of the split regex
cannot match there — so the path `"\.b"` yields the two segments
`["\", "b"]`, not the single segment `".b"`. -/
theorem escaped_dot_at_start_separates :
    splitPath "\\.b" = ["\\", "b"] ∧ splitPath "\\.b" ≠ [".b"] :=
  ⟨rfl, by decide⟩

/-- Claim C6 (amended): the path `"a\.b.c"` splits into exactly the two
segments `"a.b"` and `"c"`, and `"\\"` in a part denotes a literal
backslash; in general an escaped dot denotes a literal dot and does not
separate provided its backslash is preceded by a non-backslash
character (third conjunct: the splitter keeps such a dot in the current
segment; fourth conjunct: part unescaping turns the `"\."` into a
literal dot). -/
theorem split_escaping (c : Char) (rest acc : List Char) (hc : c ≠ '\\') :
    splitPath "a\\.b.c" = ["a.b", "c"]
  ∧ splitPath "x\\\\y" = ["x\\y"]
  ∧ splitAux (some c) (some '\\') ('.' :: rest) acc =
      splitAux (some '\\') (some '.') rest ('.' :: acc)
  ∧ replDotEsc ('\\' :: '.' :: rest) = '.' :: replDotEsc rest := by
  refine ⟨rfl, rfl, ?_, rfl⟩
  simp [splitAux, hc]

/-- Claim C7 counterexample: `set_value` on an indexed final segment
whose named property is ABSENT fails with KeyError (raised by
`obj = obj[prop_name]` before the list check), not with the
AssertionError that models TypeMismatch. -/
theorem set_value_indexed_missing_is_keyerror :
    set_value (.map []) "x[0]" (.int 5) = .error .keyError ∧
      PyErr.keyError ≠ PyErr.assertionNotList :=
  ⟨rfl, by decide⟩

/-- Claim C7 (amended): `set_value` on an indexed final segment fails
with the TypeMismatch AssertionError when the named property exists in
the resolved parent but is not a sequence; when the named property is
absent it fails with KeyError instead. -/
theorem set_value_indexed_not_list (doc : Yaml) (path : String) (v : Yaml)
    (d0 : Yaml) (m : List (String × Yaml)) (prop name : String) (idx : Nat)
    (y : Yaml)
    (hres : getParentAndProp doc path = .ok (d0, .map m, prop))
    (hmatch : matchIndexed prop = some (name, idx)) :
    (lookupA m name = none → set_value doc path v = .error .keyError)
  ∧ (lookupA m name = some y → (∀ l, y ≠ .seq l) →
        set_value doc path v = .error .assertionNotList) := by
  have heq := applyOnParent_eq doc path (setCont v) d0 (.map m) prop hres
  unfold set_value
  rw [heq]
  constructor
  · intro h
    simp [setCont, hmatch, h]
  · intro h h2
    cases y with
    | seq l2 => exact absurd rfl (h2 l2)
    | null => simp [setCont, hmatch, h]
    | bool b => simp [setCont, hmatch, h]
    | int n => simp [setCont, hmatch, h]
    | str s => simp [setCont, hmatch, h]
    | map m2 => simp [setCont, hmatch, h]

/-- Claim C8: `merge_obj` resolves the full path with
`_get_object_by_path` (auto-creating absent plain segments, final one
included — the hypothesis is resolution reaching a mapping `m` of the
possibly-extended document) and overwrites each merged key in that
mapping; the merge is shallow (each merged key's value is stored
wholesale) and keys not named in the merged properties keep their
values. -/
theorem merge_obj_spec (doc : Yaml) (path : String)
    (props : List (String × Yaml)) (d0 : Yaml) (m : List (String × Yaml))
    (k : String) (v : Yaml)
    (hres : walkRead doc (splitPath path) = .ok (d0, .map m))
    (hnd : (props.map Prod.fst).Nodup) :
    merge_obj doc path props =
        walkSet doc (splitPath path) (.map (mergeProps m props))
  ∧ ((k, v) ∈ props → lookupA (mergeProps m props) k = some v)
  ∧ (k ∉ props.map Prod.fst →
        lookupA (mergeProps m props) k = lookupA m k) := by
  refine ⟨?_, ?_, ?_⟩
  · unfold merge_obj
    rw [walk_decompose, hres]
    dsimp only
    simp only [mergeCont]
    cases hws : walkSet doc (splitPath path) (.map (mergeProps m props)) with
    | error e => rfl
    | ok d2 => rfl
  · intro h
    exact lookupA_mergeProps_mem props m k v hnd h
  · intro h
    exact lookupA_mergeProps_notMem props m k h

/-- Claim C9: for a document whose key "list" holds a sequence,
`append_value("list", v)` with a sequence `v` produces the same result
as `set_value("list", list ++ v)`. -/
theorem append_eq_set_concat (m : List (String × Yaml)) (l vl : List Yaml)
    (h : lookupA m "list" = some (.seq l)) :
    append_value (.map m) "list" (.seq vl) =
      set_value (.map m) "list" (.seq (l ++ vl)) := by
  have h1 := applyOnParent_eq (.map m) "list" (appendCont (.seq vl))
    (.map m) (.map m) "list" rfl
  have h2 := applyOnParent_eq (.map m) "list" (setCont (.seq (l ++ vl)))
    (.map m) (.map m) "list" rfl
  unfold append_value set_value
  rw [h1, h2]
  simp [appendCont, setCont, h, addVals,
    show matchIndexed "list" = none from rfl]

/-- Claim C10 (implicit): for a path whose split has a single part, the
operations use the RAW path string as the key — no `\.`/`\\` unescaping
is applied: parent resolution returns the root document and the raw
path; `set_value` writes under the raw path as key; `append_value` and
`delete_property` look up the raw path as key. -/
theorem single_segment_raw_key (doc : Yaml) (path : String)
    (m : List (String × Yaml)) (v : Yaml)
    (hsplit : (splitPath path).length = 1)
    (hmatch : matchIndexed path = none) :
    getParentAndProp doc path = .ok (doc, doc, path)
  ∧ set_value (.map m) path v = .ok (.map (setA m path v))
  ∧ append_value (.map m) path v =
      (match lookupA m path with
       | none => .error .keyError
       | some old =>
           match addVals old v with
           | .error e => .error e
           | .ok s => .ok (.map (setA m path s)))
  ∧ delete_property (.map m) path false =
      .ok (.map (if containsA m path then eraseA m path else m)) := by
  have hlen : ((splitPath path).length == 1) = true := by simp [hsplit]
  refine ⟨?_, ?_, ?_, ?_⟩
  · unfold getParentAndProp
    simp [hlen]
  · unfold set_value applyOnParent
    simp [hlen, setCont, hmatch]
  · unfold append_value applyOnParent
    simp only [hlen, if_true]
    cases hl : lookupA m path with
    | none => simp [appendCont, hl]
    | some old =>
        cases ha : addVals old v with
        | error e => simp [appendCont, hl, ha]
        | ok s => simp [appendCont, hl, ha]
  · unfold delete_property applyOnParent
    simp only [hlen, if_true]
    by_cases hc : containsA m path <;> simp [deleteCont, hc]

/-! ### Concrete witnesses -/

/-- Witness for the indexed `set_value` cases: the spec scenario
`setValue("a.b[3]", 4)` on `{a: {b: [1,2,3]}}` appends. -/
theorem set_value_indexed_cases_witness :
    set_value (.map [("a", .map [("b", .seq [.int 1, .int 2, .int 3])])])
        "a.b[3]" (.int 4) =
      .ok (.map [("a", .map [("b",
        .seq [.int 1, .int 2, .int 3, .int 4])])]) ∧
    ([Yaml.int 1, Yaml.int 2, Yaml.int 3] ++ [Yaml.int 4]).length =
      [Yaml.int 1, Yaml.int 2, Yaml.int 3].length + 1 :=
  (set_value_indexed_cases
      (.map [("a", .map [("b", .seq [.int 1, .int 2, .int 3])])])
      "a.b[3]" (.int 4)
      (.map [("a", .map [("b", .seq [.int 1, .int 2, .int 3])])])
      [("b", .seq [.int 1, .int 2, .int 3])] "b[3]" "b" 3
      [.int 1, .int 2, .int 3] rfl rfl rfl).1 rfl

/-- Witness for the resolution-step cases: an indexed segment whose name
is absent from the mapping fails with the PathError-kind RuntimeError. -/
theorem resolution_step_witness :
    walkRead (.map []) ["x[0]"] = .error .runtimeIllegal :=
  (resolution_step (fun y => (.ok (y, y) : Except PyErr (Yaml × Yaml)))
      [] "x[0]" [] "x" 0 .null []).2.1 rfl rfl

/-- Witness for the `delete_property` cases: deleting an absent key with
`raise_if_missing` set fails with KeyError. -/
theorem delete_property_cases_witness :
    delete_property (.map []) "missing.key" true = .error .keyError :=
  (delete_property_cases (.map []) "missing.key" true
      (.map [("missing", .map [])]) [] "key" rfl).2.1 rfl rfl

/-- Witness for the `append_value` specification: appending to an absent
key fails with KeyError. -/
theorem append_value_spec_witness :
    append_value (.map []) "k" (.int 1) = .error .keyError :=
  (append_value_spec (.map []) "k" (.int 1) (.map []) [] "k" .null .null
      rfl).1 rfl

/-- Witness for the escaping behaviour at a concrete non-backslash
preceding character. -/
theorem split_escaping_witness :
    splitPath "a\\.b.c" = ["a.b", "c"]
  ∧ splitPath "x\\\\y" = ["x\\y"]
  ∧ splitAux (some 'a') (some '\\') ['.'] [] =
      splitAux (some '\\') (some '.') [] ['.']
  ∧ replDotEsc ['\\', '.'] = '.' :: replDotEsc [] :=
  split_escaping 'a' [] [] (by decide)

/-- Witness for the indexed `set_value` type errors: a present non-list
property fails with the TypeMismatch AssertionError. -/
theorem set_value_indexed_not_list_witness :
    set_value (.map [("x", .int 1)]) "x[2]" (.int 5) =
      .error .assertionNotList :=
  (set_value_indexed_not_list (.map [("x", .int 1)]) "x[2]" (.int 5)
      (.map [("x", .int 1)]) [("x", .int 1)] "x[2]" "x" 2 (.int 1)
      rfl rfl).2 rfl (fun _l h => Yaml.noConfusion h)

/-- Witness for the `merge_obj` specification: a shallow overwrite of one
existing key and one new key, leaving the other key unchanged. -/
theorem merge_obj_spec_witness :
    merge_obj (.map [("a", .map [("x", .int 1), ("y", .int 2)])]) "a"
        [("x", .int 9), ("z", .int 3)] =
      .ok (.map [("a", .map [("x", .int 9), ("y", .int 2),
        ("z", .int 3)])]) :=
  (merge_obj_spec (.map [("a", .map [("x", .int 1), ("y", .int 2)])]) "a"
      [("x", .int 9), ("z", .int 3)]
      (.map [("a", .map [("x", .int 1), ("y", .int 2)])])
      [("x", .int 1), ("y", .int 2)] "x" (.int 9) rfl (by decide)).1

/-- Witness for the append/set equivalence at a concrete document. -/
theorem append_eq_set_concat_witness :
    append_value (.map [("list", .seq [.int 1])]) "list" (.seq [.int 2]) =
      set_value (.map [("list", .seq [.int 1])]) "list"
        (.seq ([.int 1] ++ [.int 2])) :=
  append_eq_set_concat [("list", .seq [.int 1])] [.int 1] [.int 2] rfl

/-- Witness for raw single-segment keys: `set_value("a\.b", 1)` writes
under the literal key `"a\.b"` (backslash included), not `"a.b"`. -/
theorem single_segment_raw_key_witness :
    getParentAndProp (.map []) "a\\.b" = .ok (.map [], .map [], "a\\.b")
  ∧ set_value (.map []) "a\\.b" (.int 1) = .ok (.map [("a\\.b", .int 1)])
  ∧ append_value (.map []) "a\\.b" (.int 1) = .error .keyError
  ∧ delete_property (.map []) "a\\.b" false = .ok (.map []) :=
  single_segment_raw_key (.map []) "a\\.b" [] (.int 1) rfl rfl
